import Mathlib

/-!
Verification of the streamlog metadata-extraction engine.

The Go sources embedded here:
* `cmd/listinterfaces/main.go` — `extractSNI` (TLS ClientHello SNI parser),
  `processPacket` (per-frame dispatch), and the capture loop in `main`;
* `internal/capture/interfaces.go` — `FindInterfaces`.

Payloads are byte slices, modelled as `List UInt8`.  Go's `payload[i]` on an
index the code has bounds-checked is modelled by `byteAt` (default 0); the
`Checked` variants below return `none` exactly when the Go expression would
read out of bounds, and the equivalence theorems prove the default is never
consulted.
-/

/-- Value of `payload[i]` for an in-bounds read; 0 when out of bounds. -/
def byteAt (p : List UInt8) (i : Nat) : UInt8 :=
  (p[i]?).getD 0

/-- Read of `payload[i]` that records whether the index is in bounds. -/
def byteAt? (p : List UInt8) (i : Nat) : Option UInt8 :=
  p[i]?

/-- Big-endian 16-bit read: Go's `int(payload[i])<<8 | int(payload[i+1])`. -/
def be16 (p : List UInt8) (i : Nat) : Nat :=
  (byteAt p i).toNat <<< 8 ||| (byteAt p (i + 1)).toNat

/-- Bounds-recording form of `be16`. -/
def be16? (p : List UInt8) (i : Nat) : Option Nat :=
  match byteAt? p i, byteAt? p (i + 1) with
  | some a, some b => some (a.toNat <<< 8 ||| b.toNat)
  | _, _ => none

/-- Go's slice expression `payload[a:b]` (defined when `a ≤ b ≤ len`). -/
def subSlice (p : List UInt8) (a b : Nat) : List UInt8 :=
  (p.drop a).take (b - a)

/-- Checked `payload[a:b]`: `none` exactly when Go slicing would panic. -/
def subSlice? (p : List UInt8) (a b : Nat) : Option (List UInt8) :=
  if a ≤ b ∧ b ≤ p.length then some (subSlice p a b) else none

/-- Go's `string(bytes)` conversion, byte-wise (adequate here: the engine
only compares results against `""` and concrete ASCII names). -/
def stringOfBytes (l : List UInt8) : String :=
  String.mk (l.map (fun b => Char.ofNat b.toNat))

theorem byteAt?_eq_some {p : List UInt8} {i : Nat} (h : i < p.length) :
    byteAt? p i = some (byteAt p i) := by
  simp [byteAt?, byteAt, List.getElem?_eq_getElem h]

theorem be16?_eq_some {p : List UInt8} {i : Nat} (h : i + 1 < p.length) :
    be16? p i = some (be16 p i) := by
  unfold be16? be16
  rw [byteAt?_eq_some (by omega), byteAt?_eq_some h]

/-- Body of the Go `if extType == 0` branch of `extractSNI`'s extension
loop (main.go lines 194–213): `offset` is the position just after the
4-byte extension header, `extLen` its declared length, `endp` the end of
the extensions block. -/
def handleServerName (p : List UInt8) (endp offset extLen : Nat) : String :=
  if offset + extLen > endp then ""
  else if extLen < 5 then ""
  else
    let sniLen := be16 p (offset + 3)
    if offset + 5 + sniLen > endp then ""
    else stringOfBytes (subSlice p (offset + 5) (offset + 5 + sniLen))

/-- Checked form of `handleServerName`. -/
def handleServerNameChecked (p : List UInt8) (endp offset extLen : Nat) :
    Option String :=
  if offset + extLen > endp then some ""
  else if extLen < 5 then some ""
  else match be16? p (offset + 3) with
  | none => none
  | some sniLen =>
    if offset + 5 + sniLen > endp then some ""
    else (subSlice? p (offset + 5) (offset + 5 + sniLen)).map stringOfBytes

/-- The extension-walking loop of `extractSNI` (`for offset+4 <= end`,
main.go lines 189–215). -/
def extLoop (p : List UInt8) (endp offset : Nat) : String :=
  if offset + 4 ≤ endp then
    let extType := be16 p offset
    let extLen := be16 p (offset + 2)
    if extType = 0 then handleServerName p endp (offset + 4) extLen
    else extLoop p endp (offset + 4 + extLen)
  else ""
termination_by endp - offset
decreasing_by omega

/-- Checked form of `extLoop`. -/
def extLoopChecked (p : List UInt8) (endp offset : Nat) : Option String :=
  if offset + 4 ≤ endp then
    match be16? p offset, be16? p (offset + 2) with
    | some extType, some extLen =>
      if extType = 0 then handleServerNameChecked p endp (offset + 4) extLen
      else extLoopChecked p endp (offset + 4 + extLen)
    | _, _ => none
  else some ""
termination_by endp - offset
decreasing_by omega

/-- Sequential prefix walk of `extractSNI` (main.go lines 150–185):
`43 = 5 + 4 + 2 + 32` skips the record header, handshake header, client
version and client random; then the session-id, cipher-suites and
compression-methods fields are skipped, each guarded exactly as in the
source.  Returns the position of the 2-byte extensions-length field, or
`none` when one of the early `return ""` checks fires. -/
def extensionsStart? (payload : List UInt8) : Option Nat :=
  if payload.length < 43 then none
  else if 43 ≥ payload.length then none
  else
    let sessIDLen := (byteAt payload 43).toNat
    let offset := 43 + 1 + sessIDLen
    if offset + 2 > payload.length then none
    else
      let cipherSuitesLen := be16 payload offset
      let offset := offset + 2 + cipherSuitesLen
      if offset + 1 > payload.length then none
      else
        let compMethodsLen := (byteAt payload offset).toNat
        let offset := offset + 1 + compMethodsLen
        if offset + 2 > payload.length then none
        else some offset

/-- Checked form of `extensionsStart?` (outer `none` = out-of-bounds read,
`some none` = an early `return ""`). -/
def extensionsStartChecked? (payload : List UInt8) : Option (Option Nat) :=
  if payload.length < 43 then some none
  else if 43 ≥ payload.length then some none
  else match byteAt? payload 43 with
  | none => none
  | some b =>
    let offset := 43 + 1 + b.toNat
    if offset + 2 > payload.length then some none
    else match be16? payload offset with
    | none => none
    | some cs =>
      let offset := offset + 2 + cs
      if offset + 1 > payload.length then some none
      else match byteAt? payload offset with
      | none => none
      | some c =>
        let offset := offset + 1 + c.toNat
        if offset + 2 > payload.length then some none
        else some (some offset)

/-- Go `extractSNI` from `cmd/listinterfaces/main.go`: the sequential
prefix walk (`extensionsStart?`), then the extensions-length field is
read, the block end is computed and clamped to the payload length
(`end := offset + extensionsLen; if end > len(payload) { end = len(payload) }`),
and the extension loop runs. -/
def extractSNI (payload : List UInt8) : String :=
  match extensionsStart? payload with
  | none => ""
  | some offset =>
    let extensionsLen := be16 payload offset
    let offset := offset + 2
    let endp := offset + extensionsLen
    let endp := if endp > payload.length then payload.length else endp
    extLoop payload endp offset

/-- Checked form of `extractSNI`. -/
def extractSNIChecked (payload : List UInt8) : Option String :=
  match extensionsStartChecked? payload with
  | none => none
  | some none => some ""
  | some (some offset) =>
    match be16? payload offset with
    | none => none
    | some extensionsLen =>
      let offset := offset + 2
      let endp := offset + extensionsLen
      let endp := if endp > payload.length then payload.length else endp
      extLoopChecked payload endp offset

/-- End of the extensions block as `extractSNI` computes it from the
length field at `o`: declared end, clamped to the payload length. -/
def extEnd (p : List UInt8) (o : Nat) : Nat :=
  let e := o + 2 + be16 p o
  if e > p.length then p.length else e

theorem extractSNI_eq_extLoop (p : List UInt8) (o : Nat)
    (h : extensionsStart? p = some o) :
    extractSNI p = extLoop p (extEnd p o) (o + 2) := by
  unfold extractSNI extEnd
  rw [h]

theorem extensionsStart?_le (p : List UInt8) (o : Nat)
    (h : extensionsStart? p = some o) : o + 2 ≤ p.length := by
  unfold extensionsStart? at h
  dsimp only at h
  split_ifs at h
  simp only [Option.some.injEq] at h
  omega

theorem handleServerNameChecked_eq (p : List UInt8) (endp offset extLen : Nat)
    (hend : endp ≤ p.length) :
    handleServerNameChecked p endp offset extLen =
      some (handleServerName p endp offset extLen) := by
  unfold handleServerNameChecked handleServerName
  split_ifs with h1 h2
  · rfl
  · rfl
  · rw [be16?_eq_some (by omega)]
    dsimp only
    split_ifs with h3
    · rfl
    · unfold subSlice?
      rw [if_pos ⟨by omega, by omega⟩]
      rfl

theorem extLoopChecked_eq (p : List UInt8) (endp offset : Nat)
    (hend : endp ≤ p.length) :
    extLoopChecked p endp offset = some (extLoop p endp offset) := by
  suffices H : ∀ n o, endp - o ≤ n →
      extLoopChecked p endp o = some (extLoop p endp o) from
    H (endp - offset) offset le_rfl
  intro n
  induction n with
  | zero =>
    intro o h0
    unfold extLoopChecked extLoop
    rw [if_neg (by omega), if_neg (by omega)]
  | succ n ih =>
    intro o h0
    unfold extLoopChecked extLoop
    split_ifs with h1
    · rw [be16?_eq_some (by omega), be16?_eq_some (by omega)]
      dsimp only
      split_ifs with h2
      · exact handleServerNameChecked_eq p endp (o + 4) (be16 p (o + 2)) hend
      · exact ih (o + 4 + be16 p (o + 2)) (by omega)
    · rfl

theorem extensionsStartChecked?_eq (p : List UInt8) :
    extensionsStartChecked? p = some (extensionsStart? p) := by
  unfold extensionsStartChecked? extensionsStart?
  dsimp only
  split_ifs with h1 h2 h3 h4 h5
  · rfl
  · rfl
  · rw [byteAt?_eq_some (by omega)]
    dsimp only
    rw [if_pos h3]
  · rw [byteAt?_eq_some (by omega)]
    dsimp only
    rw [if_neg h3, be16?_eq_some (by omega)]
    dsimp only
    rw [if_pos h4]
  · rw [byteAt?_eq_some (by omega)]
    dsimp only
    rw [if_neg h3, be16?_eq_some (by omega)]
    dsimp only
    rw [if_neg h4, byteAt?_eq_some (by omega)]
    dsimp only
    rw [if_pos h5]
  · rw [byteAt?_eq_some (by omega)]
    dsimp only
    rw [if_neg h3, be16?_eq_some (by omega)]
    dsimp only
    rw [if_neg h4, byteAt?_eq_some (by omega)]
    dsimp only
    rw [if_neg h5]

theorem extractSNIChecked_eq (p : List UInt8) :
    extractSNIChecked p = some (extractSNI p) := by
  unfold extractSNIChecked extractSNI
  rw [extensionsStartChecked?_eq]
  cases h : extensionsStart? p with
  | none => rfl
  | some o =>
    have hle := extensionsStart?_le p o h
    dsimp only
    rw [be16?_eq_some (by omega)]
    dsimp only
    split_ifs with hcl
    · exact extLoopChecked_eq p p.length (o + 2) le_rfl
    · exact extLoopChecked_eq p (o + 2 + be16 p o) (o + 2) (by omega)

/-- Offset of the first extension with type 0 (server_name) reached by the
extension loop, following exactly the loop's stride. -/
def firstServerNameExt (p : List UInt8) (endp offset : Nat) : Option Nat :=
  if offset + 4 ≤ endp then
    if be16 p offset = 0 then some offset
    else firstServerNameExt p endp (offset + 4 + be16 p (offset + 2))
  else none
termination_by endp - offset
decreasing_by omega

theorem extLoop_eq_firstServerNameExt (p : List UInt8) (endp offset : Nat) :
    extLoop p endp offset =
      (match firstServerNameExt p endp offset with
       | none => ""
       | some j => handleServerName p endp (j + 4) (be16 p (j + 2))) := by
  suffices H : ∀ n o, endp - o ≤ n →
      extLoop p endp o =
        (match firstServerNameExt p endp o with
         | none => ""
         | some j => handleServerName p endp (j + 4) (be16 p (j + 2))) from
    H (endp - offset) offset le_rfl
  intro n
  induction n with
  | zero =>
    intro o h0
    unfold extLoop firstServerNameExt
    rw [if_neg (by omega), if_neg (by omega)]
  | succ n ih =>
    intro o h0
    unfold extLoop firstServerNameExt
    dsimp only
    split_ifs with h1 h2
    · rfl
    · exact ih (o + 4 + be16 p (o + 2)) (by omega)
    · rfl

/-- One parsed DNS question as gopacket's DNS layer delivers it to
`processPacket`: `name` is the decoded dotted-name byte slice
(`q.Name : []byte`), `qtype` the numeric record-type code. -/
structure DNSQuestion where
  name : List UInt8
  qtype : Nat
deriving DecidableEq

/-- The fields of gopacket's decoded DNS layer that `processPacket`
reads: the QR flag and the question list. -/
structure DNSLayer where
  qr : Bool
  questions : List DNSQuestion
deriving DecidableEq

/-- View of a captured frame as `processPacket` observes it through
gopacket: an optional decoded DNS layer, presence of a TCP layer, the
application-layer payload if any, and the transport ports (which the
code never reads — recorded here so port-independence is statable). -/
structure Packet where
  dns : Option DNSLayer
  tcp : Bool
  appPayload : Option (List UInt8)
  srcPort : Nat
  dstPort : Nat
deriving DecidableEq

/-- An event printed by `processPacket`: one `[DNS] Query:` line or one
`[TLS] SNI:` line. -/
inductive Event where
  | dnsQuery (name : String) (qtype : Nat)
  | tlsSNI (host : String)
deriving DecidableEq

/-- Go `processPacket` from `cmd/listinterfaces/main.go`: if a DNS layer
is present, drop responses (`dns.QR`) and otherwise print one query line
per question; else, on a TCP layer with an application payload, check
`len(payload) > 5 && payload[0] == 22`, then `payload[5] == 1`, and
print the extracted SNI when non-empty. -/
def processPacket (pkt : Packet) : List Event :=
  match pkt.dns with
  | some dns =>
    if dns.qr then []
    else dns.questions.map (fun q => Event.dnsQuery (stringOfBytes q.name) q.qtype)
  | none =>
    if pkt.tcp then
      match pkt.appPayload with
      | some payload =>
        if 5 < payload.length ∧ byteAt payload 0 = 22 then
          if byteAt payload 5 = 1 then
            let sni := extractSNI payload
            if sni ≠ "" then [Event.tlsSNI sni] else []
          else []
        else []
      | none => []
    else []

/-- One action of the capture loop in `main` per frame received from the
packet channel: the loop body executes `go processPacket(packet)`,
spawning a fresh goroutine, and continues with the next frame. -/
inductive LoopAction where
  | spawnGoroutine (pkt : Packet)
deriving DecidableEq

/-- The dispatch loop of `main` over a finite frame stream: one
`go processPacket(packet)` per received frame. -/
def dispatchLoop : List Packet → List LoopAction
  | [] => []
  | pkt :: rest => LoopAction.spawnGoroutine pkt :: dispatchLoop rest

/-- Modelled from the spec: the DNS question-name decoding performed by
the external gopacket library before `processPacket` sees `q.Name`
(this decoding is not part of src/).  Spec §4.2: "decode the QNAME using
the standard DNS label-length-prefixed encoding (a sequence of
`(length byte, label bytes)` pairs terminated by a zero-length byte)";
labels are joined with dots into the dotted name. -/
def decodeQName (l : List UInt8) : Option (List UInt8) :=
  match l with
  | [] => none
  | n :: rest =>
    if n = 0 then some []
    else if rest.length < n.toNat then none
    else
      match decodeQName (rest.drop n.toNat) with
      | none => none
      | some s => some (rest.take n.toNat ++ (if s.isEmpty then [] else 46 :: s))
termination_by l.length
decreasing_by simp; omega

/-- Device description as libpcap's `FindAllDevs` returns it: each
address entry's `IP` field is `none` for a nil `net.IP`, or the string
form `a.IP.String()` of a non-nil address. -/
structure PcapInterface where
  Name : String
  Description : String
  Addresses : List (Option String)
deriving DecidableEq

/-- The Interface struct of `internal/capture/interfaces.go`. -/
structure Interface where
  Name : String
  Description : String
  Addresses : List String
deriving DecidableEq

/-- The inner loop of `FindInterfaces`: `for _, a := range d.Addresses
{ if a.IP != nil { addrs = append(addrs, a.IP.String()) } }`. -/
def addrStrings : List (Option String) → List String
  | [] => []
  | some s :: rest => s :: addrStrings rest
  | none :: rest => addrStrings rest

/-- Go `FindInterfaces` from `internal/capture/interfaces.go`, as a
function of the result of the `findAllDevs` call (modelled as an
`Except`: the Go function returns `nil, err` on error, and otherwise
converts each device in order). -/
def FindInterfaces (devs : Except String (List PcapInterface)) :
    Except String (List Interface) :=
  match devs with
  | .error e => .error e
  | .ok devices =>
    .ok (devices.map fun d =>
      { Name := d.Name, Description := d.Description,
        Addresses := addrStrings d.Addresses })

theorem addrStrings_eq_filterMap (l : List (Option String)) :
    addrStrings l = l.filterMap id := by
  induction l with
  | nil => rfl
  | cons a rest ih => cases a <;> simp [addrStrings, ih]

theorem extLoop_step_zero (p : List UInt8) (endp o : Nat)
    (h1 : o + 4 ≤ endp) (h0 : be16 p o = 0) :
    extLoop p endp o = handleServerName p endp (o + 4) (be16 p (o + 2)) := by
  unfold extLoop
  rw [if_pos h1]
  dsimp only
  rw [if_pos h0]

/-- A 62-byte payload whose record-type byte is 0 (not 22 = Handshake)
and whose handshake-type byte is 0 (not 1 = ClientHello), yet which
carries a complete server_name extension naming `test`: bytes 0–42 are
zero, then session-id length 0, cipher-suites length 0, compression
length 0, extensions length 13, one extension of type 0 and length 9
whose first list entry has name length 4 and name `test`. -/
def c2pay : List UInt8 :=
  List.replicate 43 0 ++
    [0, 0, 0, 0, 0, 13, 0, 0, 0, 9, 0, 7, 0, 0, 4, 116, 101, 115, 116]

theorem c2pay_sni : extractSNI c2pay = "test" := by
  rw [extractSNI_eq_extLoop c2pay 47 (by decide),
    show extEnd c2pay 47 = 62 from by decide]
  show extLoop c2pay 62 49 = "test"
  rw [extLoop_step_zero c2pay 62 49 (by decide) (by decide)]
  decide

/-- A valid-looking 62-byte ClientHello except that its declared
extensions length is 200, so the computed end of the extensions block
(49 + 200) far exceeds the 62 available bytes; the block still contains
a complete server_name extension naming `test`. -/
def c3pay : List UInt8 :=
  [22, 0, 0, 0, 0, 1] ++ List.replicate 37 0 ++
    [0, 0, 0, 0, 0, 200, 0, 0, 0, 9, 0, 7, 0, 0, 4, 116, 101, 115, 116]

theorem c3pay_sni : extractSNI c3pay = "test" := by
  rw [extractSNI_eq_extLoop c3pay 47 (by decide),
    show extEnd c3pay 47 = 62 from by decide]
  show extLoop c3pay 62 49 = "test"
  rw [extLoop_step_zero c3pay 62 49 (by decide) (by decide)]
  decide

/-- A 71-byte ClientHello with extensions length 22 and one server_name
extension of declared length 9, whose first list entry declares name
length 13: the name extends 9 bytes past the extension's own bound
(value region is bytes 53–61) but stays inside the extensions block, and
consists of 13 `a` bytes (97) overlapping what would be the next
extension's space. -/
def c4pay : List UInt8 :=
  [22, 0, 0, 0, 0, 1] ++ List.replicate 37 0 ++
    [0, 0, 0, 0, 0, 22, 0, 0, 0, 9, 0, 11, 0, 0, 13] ++ List.replicate 13 97

theorem c4pay_sni : extractSNI c4pay = "aaaaaaaaaaaaa" := by
  rw [extractSNI_eq_extLoop c4pay 47 (by decide),
    show extEnd c4pay 47 = 71 from by decide]
  show extLoop c4pay 71 49 = "aaaaaaaaaaaaa"
  rw [extLoop_step_zero c4pay 71 49 (by decide) (by decide)]
  decide

/-- A 59-byte payload with extensions length 10 and one server_name
extension whose declared length 20 exceeds the 6 value bytes available
in the block. -/
def c4wpay : List UInt8 :=
  List.replicate 43 0 ++ [0, 0, 0, 0, 0, 10, 0, 0, 0, 20, 0, 0, 0, 0, 0, 0]

/-- A 69-byte ClientHello with one server_name extension (length 16)
whose list has two entries: the first has name_type 5 (not host_name)
and name `test`; the second has name_type 0 (host_name) and name `ok`. -/
def c5pay : List UInt8 :=
  [22, 0, 0, 0, 0, 1] ++ List.replicate 37 0 ++
    [0, 0, 0, 0, 0, 20, 0, 0, 0, 16, 0, 14, 5, 0, 4, 116, 101, 115, 116,
     0, 0, 2, 111, 107, 0, 0]

theorem c5pay_sni : extractSNI c5pay = "test" := by
  rw [extractSNI_eq_extLoop c5pay 47 (by decide),
    show extEnd c5pay 47 = 69 from by decide]
  show extLoop c5pay 69 49 = "test"
  rw [extLoop_step_zero c5pay 69 49 (by decide) (by decide)]
  decide

/-- A well-formed 62-byte ClientHello (record type 22, handshake type 1)
with a server_name extension naming `test`. -/
def c8pay : List UInt8 :=
  [22, 0, 0, 0, 0, 1] ++ List.replicate 37 0 ++
    [0, 0, 0, 0, 0, 13, 0, 0, 0, 9, 0, 7, 0, 0, 4, 116, 101, 115, 116]

theorem c8pay_sni : extractSNI c8pay = "test" := by
  rw [extractSNI_eq_extLoop c8pay 47 (by decide),
    show extEnd c8pay 47 = 62 from by decide]
  show extLoop c8pay 62 49 = "test"
  rw [extLoop_step_zero c8pay 62 49 (by decide) (by decide)]
  decide

/-- C1: for every byte sequence given as payload, `extractSNI` returns a
defined string without reading any index outside the payload (the
checked interpreter, which fails on any out-of-bounds read, always
succeeds and agrees with `extractSNI`), and for any payload shorter than
the 43-byte minimum the first parse step needs it returns the empty
string. -/
theorem claim_C1_extractSNI_total (p : List UInt8) :
    extractSNIChecked p = some (extractSNI p) ∧
    (p.length < 43 → extractSNI p = "") := by
  refine ⟨extractSNIChecked_eq p, fun h => ?_⟩
  unfold extractSNI
  rw [show extensionsStart? p = none from by unfold extensionsStart?; rw [if_pos h]]

theorem claim_C1_witness :
    extractSNIChecked (List.replicate 42 0) =
      some (extractSNI (List.replicate 42 0)) ∧
    extractSNI (List.replicate 42 0) = "" :=
  ⟨(claim_C1_extractSNI_total (List.replicate 42 0)).1,
   (claim_C1_extractSNI_total (List.replicate 42 0)).2 (by decide)⟩

/-- C2 counterexample: `c2pay` has byte 0 equal to 0 (not 22), yet
`extractSNI` returns the non-empty hostname `test` — so `extractSNI`
itself does not re-validate the record-type byte. -/
theorem claim_C2_counterexample :
    byteAt c2pay 0 ≠ 22 ∧ extractSNI c2pay ≠ "" := by
  refine ⟨by decide, ?_⟩
  rw [c2pay_sni]
  decide

/-- C2 amended: the re-validation of byte 0 = 22 (Handshake) and byte 5
= 1 (ClientHello) is performed by the caller `processPacket`, not by
`extractSNI`: for every TCP frame whose payload fails either byte test,
`processPacket` emits no event, regardless of the rest of the bytes
(while `extractSNI` itself may return a non-empty name on such bytes,
as the counterexample shows). -/
theorem claim_C2_amended (payload : List UInt8) (sp dp : Nat)
    (h : byteAt payload 0 ≠ 22 ∨ byteAt payload 5 ≠ 1) :
    processPacket ⟨none, true, some payload, sp, dp⟩ = [] := by
  unfold processPacket
  dsimp only
  rw [if_pos rfl]
  rcases h with h | h
  · rw [if_neg (fun hc => h hc.2)]
  · by_cases h1 : 5 < payload.length ∧ byteAt payload 0 = 22
    · rw [if_pos h1, if_neg h]
    · rw [if_neg h1]

theorem claim_C2_witness :
    processPacket ⟨none, true, some c2pay, 51234, 443⟩ = [] :=
  claim_C2_amended c2pay 51234 443 (Or.inl (by decide))

/-- C3 counterexample: in `c3pay` the computed end of the extensions
block (start 49 plus declared length 200) exceeds the 62-byte payload,
yet `extractSNI` does not return the empty string — it continues over
the truncated range and finds `test`. -/
theorem claim_C3_counterexample :
    extensionsStart? c3pay = some 47 ∧
    c3pay.length < 47 + 2 + be16 c3pay 47 ∧
    extractSNI c3pay ≠ "" := by
  refine ⟨by decide, by decide, ?_⟩
  rw [c3pay_sni]
  decide

/-- C3 amended: when the computed end offset of the extensions block
exceeds the payload length, `extractSNI` does not abort with the empty
string; it clamps the block end to the payload length and keeps parsing
extensions inside the clamped range (still never reading out of
bounds). -/
theorem claim_C3_amended (p : List UInt8) (o : Nat)
    (h1 : extensionsStart? p = some o)
    (h2 : p.length < o + 2 + be16 p o) :
    extEnd p o = p.length ∧ extractSNI p = extLoop p p.length (o + 2) := by
  have he : extEnd p o = p.length := by
    unfold extEnd
    rw [if_pos (by omega)]
  exact ⟨he, by rw [extractSNI_eq_extLoop p o h1, he]⟩

theorem claim_C3_witness :
    extEnd c3pay 47 = c3pay.length ∧
    extractSNI c3pay = extLoop c3pay c3pay.length (47 + 2) :=
  claim_C3_amended c3pay 47 (by decide) (by decide)

/-- C4 counterexample: in `c4pay` the first server_name extension has
declared length 9 (so its value region holds at most 4 name bytes), yet
its first entry declares name length 13; `extractSNI` does not return
absent — it returns the 13-byte overlapping string `aaaaaaaaaaaaa`
taken from past the extension's own bound. -/
theorem claim_C4_counterexample :
    be16 c4pay 51 = 9 ∧ be16 c4pay 56 = 13 ∧ 9 < 5 + 13 ∧
    extractSNI c4pay ≠ "" := by
  refine ⟨by decide, by decide, by decide, ?_⟩
  rw [c4pay_sni]
  decide

/-- C4 amended: the name-length check in `extractSNI` is made against
the end of the extensions block, not against the extension's own bound:
if the declared name length makes the name extend past the (clamped)
block end, the result is absent; and if the first server_name
extension's declared length field exceeds the bytes available in the
block, the result is absent.  (A name length that overruns only the
extension's own bound, while staying inside the block, yields the
overlapping string, as the counterexample shows.) -/
theorem claim_C4_amended (p : List UInt8) (o j : Nat)
    (h1 : extensionsStart? p = some o)
    (h2 : firstServerNameExt p (extEnd p o) (o + 2) = some j) :
    (extEnd p o < j + 4 + be16 p (j + 2) → extractSNI p = "") ∧
    (5 ≤ be16 p (j + 2) → j + 4 + be16 p (j + 2) ≤ extEnd p o →
      extEnd p o < j + 9 + be16 p (j + 7) → extractSNI p = "") := by
  have key : extractSNI p =
      handleServerName p (extEnd p o) (j + 4) (be16 p (j + 2)) := by
    rw [extractSNI_eq_extLoop p o h1, extLoop_eq_firstServerNameExt, h2]
  constructor
  · intro hlt
    rw [key]
    unfold handleServerName
    rw [if_pos (by omega)]
  · intro hge hle hsni
    rw [key]
    unfold handleServerName
    rw [if_neg (by omega), if_neg (by omega)]
    dsimp only
    rw [show j + 4 + 3 = j + 7 from by omega]
    rw [if_pos (by omega)]

theorem claim_C4_witness : extractSNI c4wpay = "" :=
  (claim_C4_amended c4wpay 47 49 (by decide)
    (by
      unfold firstServerNameExt
      rw [if_pos (by decide), if_pos (by decide)])).1 (by decide)

/-- C5 counterexample: in `c5pay` the first server_name-list entry has
name_type 5 (not host_name) and name `test`, while a later entry has
name_type 0 (host_name) and name `ok`; `extractSNI` returns `test`, the
first entry's name, even though that entry is not of name_type
host_name — the code never inspects the name_type byte. -/
theorem claim_C5_counterexample :
    byteAt c5pay 55 = 5 ∧ byteAt c5pay 62 = 0 ∧
    stringOfBytes (subSlice c5pay 65 67) = "ok" ∧
    extractSNI c5pay = "test" :=
  ⟨by decide, by decide, by decide, c5pay_sni⟩

/-- C5 amended: the result of `extractSNI` is fully determined by the
first extension of type 0 found in the walk (once found, no subsequent
extension is inspected), and the returned hostname is the name of that
extension's first server_name-list entry regardless of the entry's
name_type byte, which the code never checks. -/
theorem claim_C5_amended (p : List UInt8) (o : Nat)
    (h1 : extensionsStart? p = some o) :
    extractSNI p =
      (match firstServerNameExt p (extEnd p o) (o + 2) with
       | none => ""
       | some j => handleServerName p (extEnd p o) (j + 4) (be16 p (j + 2))) := by
  rw [extractSNI_eq_extLoop p o h1, extLoop_eq_firstServerNameExt]

theorem claim_C5_witness :
    extractSNI c5pay =
      (match firstServerNameExt c5pay (extEnd c5pay 47) (47 + 2) with
       | none => ""
       | some j =>
         handleServerName c5pay (extEnd c5pay 47) (j + 4) (be16 c5pay (j + 2))) :=
  claim_C5_amended c5pay 47 (by decide)

/-- C6: a captured frame whose DNS message has QR = 1 (a response) emits
no event at all, regardless of how many questions the message
contains. -/
theorem claim_C6_dns_response_silent (pkt : Packet) (d : DNSLayer)
    (h1 : pkt.dns = some d) (h2 : d.qr = true) :
    processPacket pkt = [] := by
  unfold processPacket
  rw [h1]
  dsimp only
  rw [if_pos h2]

theorem claim_C6_witness :
    processPacket
      ⟨some ⟨true, [⟨[101, 120, 97, 109, 112, 108, 101, 46, 99, 111, 109], 1⟩]⟩,
       false, none, 53, 51234⟩ = [] :=
  claim_C6_dns_response_silent _ _ rfl rfl

theorem decodeQName_zero (rest : List UInt8) :
    decodeQName (0 :: rest) = some [] := by
  unfold decodeQName
  rw [if_pos rfl]

theorem decodeQName_label (n : UInt8) (rest : List UInt8)
    (h0 : ¬ n = 0) (hlen : ¬ rest.length < n.toNat) :
    decodeQName (n :: rest) =
      (match decodeQName (rest.drop n.toNat) with
       | none => none
       | some s => some (rest.take n.toNat ++ (if s.isEmpty then [] else 46 :: s))) := by
  conv_lhs => unfold decodeQName
  rw [if_neg h0, if_neg hlen]

theorem decodeQName_example :
    decodeQName [7, 101, 120, 97, 109, 112, 108, 101, 3, 99, 111, 109, 0] =
      some [101, 120, 97, 109, 112, 108, 101, 46, 99, 111, 109] := by
  have d1 : decodeQName [(0 : UInt8)] = some [] := decodeQName_zero []
  have d2 : decodeQName [3, 99, 111, 109, 0] = some [99, 111, 109] := by
    rw [decodeQName_label 3 [99, 111, 109, 0] (by decide) (by decide)]
    rw [show ([99, 111, 109, 0] : List UInt8).drop (3 : UInt8).toNat =
      [(0 : UInt8)] from rfl]
    rw [d1]
    decide
  rw [decodeQName_label 7 [101, 120, 97, 109, 112, 108, 101, 3, 99, 111, 109, 0]
    (by decide) (by decide)]
  rw [show ([101, 120, 97, 109, 112, 108, 101, 3, 99, 111, 109, 0] :
    List UInt8).drop (7 : UInt8).toNat = [3, 99, 111, 109, 0] from rfl]
  rw [d2]
  decide

/-- C7: a DNS query message (QR = 0) with N questions yields exactly N
`[DNS] Query:` events, one per question in document order, each carrying
the question's dotted name and type code; concretely, the question name
`[7]example[3]com[0]` decodes (per the spec's label encoding, as the
external gopacket layer does before `processPacket` runs) to
`example.com`, and a query packet carrying that question with QTYPE 1
yields exactly the event `{name: example.com, record_type: 1 (A)}`. -/
theorem claim_C7_dns_query_events (d : DNSLayer) (tcp : Bool)
    (app : Option (List UInt8)) (sp dp : Nat) (h : d.qr = false) :
    processPacket ⟨some d, tcp, app, sp, dp⟩ =
      d.questions.map (fun q => Event.dnsQuery (stringOfBytes q.name) q.qtype) ∧
    (processPacket ⟨some d, tcp, app, sp, dp⟩).length = d.questions.length ∧
    decodeQName [7, 101, 120, 97, 109, 112, 108, 101, 3, 99, 111, 109, 0] =
      some [101, 120, 97, 109, 112, 108, 101, 46, 99, 111, 109] ∧
    stringOfBytes [101, 120, 97, 109, 112, 108, 101, 46, 99, 111, 109] =
      "example.com" ∧
    processPacket
        ⟨some ⟨false, [⟨[101, 120, 97, 109, 112, 108, 101, 46, 99, 111, 109], 1⟩]⟩,
         tcp, app, sp, dp⟩ =
      [Event.dnsQuery "example.com" 1] := by
  have h1 : processPacket ⟨some d, tcp, app, sp, dp⟩ =
      d.questions.map (fun q => Event.dnsQuery (stringOfBytes q.name) q.qtype) := by
    unfold processPacket
    dsimp only
    rw [h]
    simp
  refine ⟨h1, by rw [h1]; simp, decodeQName_example, by decide, ?_⟩
  unfold processPacket
  dsimp only
  simp
  decide

theorem claim_C7_witness :
    processPacket
      ⟨some ⟨false, [⟨[101, 120, 97, 109, 112, 108, 101, 46, 99, 111, 109], 1⟩]⟩,
       false, none, 53, 51234⟩ =
      [Event.dnsQuery "example.com" 1] :=
  (claim_C7_dns_query_events
    ⟨false, [⟨[101, 120, 97, 109, 112, 108, 101, 46, 99, 111, 109], 1⟩]⟩
    false none 53 51234 rfl).2.2.2.2

/-- C8: classification of a TCP frame as TLS depends only on the payload
bytes, never on the ports: the result of `processPacket` is identical
for arbitrary ports and for 443/443; when the payload is longer than 5
bytes, starts with byte 22 and has handshake type 1, the frame is routed
to `extractSNI` whatever the ports are; and a frame whose payload fails
the byte-22 test is never treated as TLS (no event). -/
theorem claim_C8_port_independent_tls (sp dp : Nat) (payload : List UInt8) :
    processPacket ⟨none, true, some payload, sp, dp⟩ =
      processPacket ⟨none, true, some payload, 443, 443⟩ ∧
    (5 < payload.length → byteAt payload 0 = 22 → byteAt payload 5 = 1 →
      processPacket ⟨none, true, some payload, sp, dp⟩ =
        (if extractSNI payload = "" then []
         else [Event.tlsSNI (extractSNI payload)])) ∧
    (byteAt payload 0 ≠ 22 →
      processPacket ⟨none, true, some payload, sp, dp⟩ = []) := by
  refine ⟨rfl, fun hl h0 h5 => ?_, fun h0 => ?_⟩
  · unfold processPacket
    dsimp only
    rw [if_pos rfl, if_pos ⟨hl, h0⟩, if_pos h5]
    by_cases hs : extractSNI payload = ""
    · simp [hs]
    · simp [hs]
  · unfold processPacket
    dsimp only
    rw [if_pos rfl, if_neg (fun hc => h0 hc.2)]

theorem claim_C8_witness :
    processPacket ⟨none, true, some c8pay, 51234, 8080⟩ =
      [Event.tlsSNI "test"] := by
  have h := (claim_C8_port_independent_tls 51234 8080 c8pay).2.1
    (by decide) (by decide) (by decide)
  rw [h, c8pay_sni]
  decide

theorem dispatchLoop_eq_map (frames : List Packet) :
    dispatchLoop frames = frames.map LoopAction.spawnGoroutine := by
  induction frames with
  | nil => rfl
  | cons pkt rest ih => simp [dispatchLoop, ih]

/-- C9 counterexample: no fixed bound limits the number of goroutines
the dispatch loop spawns — for every candidate bound there is a frame
stream exceeding it, since the loop spawns one goroutine per frame
(`go processPacket(packet)`); so the loop is not a bounded worker pool
or inline processing. -/
theorem claim_C9_counterexample :
    ¬ ∃ B : Nat, ∀ frames : List Packet,
      (dispatchLoop frames).length ≤ B := by
  rintro ⟨B, hB⟩
  have h := hB (List.replicate (B + 1) ⟨none, false, none, 0, 0⟩)
  rw [dispatchLoop_eq_map] at h
  simp at h

/-- C9 amended: the dispatch loop in `main` spawns exactly one goroutine
per received frame, in stream order; the number of concurrent tasks
created equals the number of frames and therefore grows with traffic
volume instead of being bounded by a fixed concurrency limit. -/
theorem claim_C9_amended (frames : List Packet) :
    dispatchLoop frames = frames.map LoopAction.spawnGoroutine ∧
    (dispatchLoop frames).length = frames.length := by
  refine ⟨dispatchLoop_eq_map frames, ?_⟩
  rw [dispatchLoop_eq_map frames]
  simp

/-- C10: for every device list returned by discovery, `FindInterfaces`
returns one `Interface` per device in the same order, with `Name` and
`Description` copied verbatim and `Addresses` equal to exactly the
device's non-nil IP address strings in order (nil entries silently
skipped); when discovery fails, the same error is returned. -/
theorem claim_C10_find_interfaces (devices : List PcapInterface) (e : String) :
    (∃ ifs, FindInterfaces (.ok devices) = .ok ifs ∧
      ifs.length = devices.length ∧
      ∀ i : Nat, ifs[i]? = (devices[i]?).map (fun (d : PcapInterface) =>
        ({ Name := d.Name, Description := d.Description,
           Addresses := d.Addresses.filterMap id } : Interface))) ∧
    FindInterfaces (.error e) = .error e := by
  refine ⟨⟨devices.map (fun (d : PcapInterface) =>
    ({ Name := d.Name, Description := d.Description,
       Addresses := addrStrings d.Addresses } : Interface)), rfl, by simp,
    fun i => ?_⟩, rfl⟩
  rw [List.getElem?_map]
  cases devices[i]? with
  | none => rfl
  | some d => simp [addrStrings_eq_filterMap]
